import Mathlib

/-!
Shallow embedding of the reconciliation core of the Aqua Stark backend:
player registration, starter-pack minting, tank capacity admission,
sync-queue tracking and the fish lineage engine.  The off-chain store is
modelled as explicit lists of rows; the on-chain client is modelled by
explicit success/failure parameters; every operation is a total function
returning `Except ApiError` plus the updated store where it mutates.
-/

/-- Error taxonomy of the backend (`src/core/errors`): ValidationError,
NotFoundError, ConflictError, OnChainError, plus the generic `Error`
used for unclassified storage failures. -/
inductive ApiError where
  | validationError (msg : String)
  | notFoundError (msg : String)
  | conflictError (msg : String)
  | onChainError (msg : String)
  | genericError (msg : String)
  deriving Repr, DecidableEq

/-- Kind of an error, forgetting the message. -/
inductive ErrKind where
  | validation
  | notFound
  | conflict
  | onChain
  | generic
  deriving Repr, DecidableEq

/-- Classifies an `ApiError` by its kind. -/
def ApiError.kind : ApiError → ErrKind
  | .validationError _ => .validation
  | .notFoundError _ => .notFound
  | .conflictError _ => .conflict
  | .onChainError _ => .onChain
  | .genericError _ => .generic

/-- Drops leading whitespace characters from a character list. -/
def dropLeadingWS (cs : List Char) : List Char :=
  cs.dropWhile Char.isWhitespace

/-- Model of JavaScript String.prototype.trim over the character-list
model of strings: removes leading and trailing whitespace. -/
def jsTrim (s : String) : String :=
  ⟨(dropLeadingWS (dropLeadingWS s.data).reverse).reverse⟩

-- ===========================================================================
-- Player registration (src/src/services/player.service.ts)
-- ===========================================================================

deriving instance DecidableEq for Except

/-- Off-chain row of the players table. -/
structure PlayerRow where
  address : String
  total_xp : Nat
  fish_count : Nat
  tournaments_won : Nat
  reputation : Nat
  offspring_created : Nat
  avatar_url : Option String
  deriving Repr, DecidableEq

/-- Lookup of a player row by exact address, the model of
select-eq-address-single in the service. -/
def findPlayer (db : List PlayerRow) (address : String) : Option PlayerRow :=
  db.find? (fun r => r.address == address)

/-- Result of one registerPlayer call: the returned value or error, the
players table afterwards, and whether the on-chain registration call
was invoked. -/
structure RegisterOutcome where
  result : Except ApiError PlayerRow
  players : List PlayerRow
  onChainCalled : Bool
  deriving Repr, DecidableEq

/-- PlayerService.registerPlayer.  Validates the address, looks the
player up by the untrimmed address, and on the fast path returns the
existing row without touching the chain.  Otherwise it inserts a row
keyed by the trimmed address (the store rejects a duplicate address with
a unique-constraint failure, surfaced by the service as a generic
error), then invokes the on-chain registration; an on-chain failure is
surfaced as OnChainError while the inserted row is kept.
`chainOk` models whether the on-chain registration call succeeds. -/
def registerPlayer (chainOk : Bool) (db : List PlayerRow) (address : String) :
    RegisterOutcome :=
  if jsTrim address = "" then
    ⟨.error (.validationError "Address is required"), db, false⟩
  else
    match findPlayer db address with
    | some row => ⟨.ok row, db, false⟩
    | none =>
      let newRow : PlayerRow :=
        ⟨jsTrim address, 0, 0, 0, 0, 0, none⟩
      if db.any (fun r => r.address == jsTrim address) then
        ⟨.error (.genericError "Failed to create player in Supabase: duplicate key"),
          db, false⟩
      else
        let db' := db ++ [newRow]
        if chainOk then
          ⟨.ok newRow, db', true⟩
        else
          ⟨.error (.onChainError "Failed to register player on-chain"), db', true⟩

example : registerPlayer true [] " a" =
    ⟨.ok ⟨"a", 0, 0, 0, 0, 0, none⟩, [⟨"a", 0, 0, 0, 0, 0, none⟩], true⟩ := by
  decide

-- ===========================================================================
-- Sync queue (src/src/services/sync.service.ts)
-- ===========================================================================

/-- Row of the sync_queue table.  Timestamps are modelled as natural
numbers (creation order). -/
structure SyncRow where
  id : Nat
  tx_hash : String
  entity_type : String
  entity_id : String
  status : String
  retry_count : Nat
  created_at : Nat
  updated_at : Nat
  deriving Repr, DecidableEq

/-- The fixed entity-type enum accepted by addToSyncQueue. -/
def validEntityTypes : List String := ["player", "fish", "tank", "decoration"]

/-- The fixed status enum accepted by updateSyncStatus. -/
def validStatuses : List String := ["pending", "confirmed", "failed"]

/-- Lookup of a sync row by exact tx hash (tx_hash is unique). -/
def findSync (db : List SyncRow) (txHash : String) : Option SyncRow :=
  db.find? (fun r => r.tx_hash == txHash)

/-- SyncService.addToSyncQueue.  Validates the three inputs, then
inserts a row with status pending and retry_count 0.  The store's
unique constraint on tx_hash is translated into a ValidationError; any
other storage failure (modelled by the `fault` parameter) is surfaced
as a generic error.  `nextId` and `now` model the id and timestamp the
store assigns to the new row. -/
def addToSyncQueue (fault : Option String) (db : List SyncRow)
    (txHash entityType entityId : String) (nextId now : Nat) :
    Except ApiError (SyncRow × List SyncRow) :=
  if jsTrim txHash = "" then
    .error (.validationError "Transaction hash is required")
  else if !(validEntityTypes.contains entityType) then
    .error (.validationError "Invalid entity type")
  else if jsTrim entityId = "" then
    .error (.validationError "Entity ID is required")
  else
    match fault with
    | some msg => .error (.genericError ("Failed to add entry to sync queue: " ++ msg))
    | none =>
      if db.any (fun r => r.tx_hash == jsTrim txHash) then
        .error (.validationError "Transaction hash already exists in sync queue")
      else
        let row : SyncRow :=
          ⟨nextId, jsTrim txHash, entityType, jsTrim entityId, "pending", 0, now, now⟩
        .ok (row, db ++ [row])

/-- SyncService.updateSyncStatus.  Validates the tx hash and the target
status, fetches the current row (NotFoundError when absent), and writes
the new status; when the new status is failed the retry count written is
the currently stored retry count plus one, otherwise it is left as
stored. -/
def updateSyncStatus (db : List SyncRow) (txHash status : String) :
    Except ApiError (SyncRow × List SyncRow) :=
  if jsTrim txHash = "" then
    .error (.validationError "Transaction hash is required")
  else if !(validStatuses.contains status) then
    .error (.validationError "Invalid status")
  else
    match findSync db (jsTrim txHash) with
    | none => .error (.notFoundError "Sync queue entry not found")
    | some row =>
      let newRetry := if status == "failed" then row.retry_count + 1 else row.retry_count
      let row' : SyncRow := { row with status := status, retry_count := newRetry }
      let db' := db.map (fun r => if r.tx_hash == jsTrim txHash then
        { r with status := status, retry_count := newRetry } else r)
      .ok (row', db')

/-- Order on sync rows used by getPendingSyncs: creation time ascending. -/
def createdLE (a b : SyncRow) : Prop := a.created_at ≤ b.created_at

instance : DecidableRel createdLE := fun a b => Nat.decLe a.created_at b.created_at

instance : IsTotal SyncRow createdLE := ⟨fun a b => Nat.le_total a.created_at b.created_at⟩

instance : IsTrans SyncRow createdLE := ⟨fun _ _ _ => Nat.le_trans⟩

/-- SyncService.getPendingSyncs.  Selects the rows with status pending
ordered by creation time ascending; a storage failure (modelled by
`fault`) is surfaced as a generic error, and no pending rows yield the
empty list, not an error. -/
def getPendingSyncs (fault : Option String) (db : List SyncRow) :
    Except ApiError (List SyncRow) :=
  match fault with
  | some msg => .error (.genericError ("Failed to query pending sync queue entries: " ++ msg))
  | none => .ok (List.insertionSort createdLE (db.filter (fun r => r.status == "pending")))

-- ===========================================================================
-- Tanks, fish, starter pack (spec §4.2 / §4.3 and the service tests)
-- ===========================================================================

/-- Off-chain row of the tanks table. -/
structure TankRow where
  id : Nat
  owner : String
  name : String
  deriving Repr, DecidableEq

/-- Off-chain row of the fish table as relevant to tank occupancy and
ownership (the genealogy engine uses its own row type below). -/
structure StarterFishRow where
  id : Nat
  owner : String
  tank_id : Nat
  deriving Repr, DecidableEq

/-- Off-chain store state used by the starter-pack orchestration and
the capacity guard. -/
structure GameState where
  players : List PlayerRow
  tanks : List TankRow
  fishes : List StarterFishRow
  deriving Repr, DecidableEq

/-- On-chain client behaviour for one mintStarterPack run: the tank
mint outcome and the fish mint outcome per call index; `none` models a
failed on-chain call. -/
structure Chain where
  mintTank : Option Nat
  mintFish : Nat → Option Nat

/-- Result of one mintStarterPack call: the returned pair or error, the
store afterwards, and how many on-chain tank and fish mint calls were
made. -/
structure MintOutcome where
  result : Except ApiError (Nat × List Nat)
  state : GameState
  tankMintCalls : Nat
  fishMintCalls : Nat
  deriving Repr, DecidableEq

/-- Updates the stored fish_count of the player with the given address. -/
def setFishCount (players : List PlayerRow) (address : String) (n : Nat) :
    List PlayerRow :=
  players.map (fun p => if p.address == address then { p with fish_count := n } else p)

/-- Modelled from the spec: `PlayerService.mintStarterPack` is absent
from the source tree (only its tests exist), so this follows spec §4.3:
validate the address, require the player to exist, fail with
ConflictError when a tank owned by the address already exists (the
at-most-once guard), then mint one tank (fixed capacity) and two fish
on-chain, inserting each off-chain row after its on-chain call, abort
with OnChainError on any on-chain failure without rolling back earlier
inserts, and finally set the player's fish count to the pre-read
occupancy plus the two new fish. -/
def mintStarterPack (c : Chain) (st : GameState) (address : String) : MintOutcome :=
  if jsTrim address = "" then
    ⟨.error (.validationError "Address is required"), st, 0, 0⟩
  else if !(st.players.any (fun p => p.address == address)) then
    ⟨.error (.notFoundError "Player not found"), st, 0, 0⟩
  else if st.tanks.any (fun t => t.owner == address) then
    ⟨.error (.conflictError "Player already has a starter pack"), st, 0, 0⟩
  else
    let priorFish := (st.fishes.filter (fun f => f.owner == address)).length
    match c.mintTank with
    | none => ⟨.error (.onChainError "Failed to mint tank on-chain"), st, 1, 0⟩
    | some tankId =>
      let st1 : GameState :=
        { st with tanks := st.tanks ++ [⟨tankId, address, "Starter Tank"⟩] }
      match c.mintFish 0 with
      | none => ⟨.error (.onChainError "Failed to mint fish on-chain"), st1, 1, 1⟩
      | some fish1 =>
        let st2 : GameState :=
          { st1 with fishes := st1.fishes ++ [⟨fish1, address, tankId⟩] }
        match c.mintFish 1 with
        | none => ⟨.error (.onChainError "Failed to mint fish on-chain"), st2, 1, 2⟩
        | some fish2 =>
          let st3 : GameState :=
            { st2 with fishes := st2.fishes ++ [⟨fish2, address, tankId⟩] }
          let st4 : GameState :=
            { st3 with players := setFishCount st3.players address (priorFish + 2) }
          ⟨.ok (tankId, [fish1, fish2]), st4, 1, 2⟩

/-- Modelled from the spec: `TankService.checkTankCapacity` is absent
from the source tree (only its tests exist), so this follows spec §4.2:
validate the tank id, require the tank to exist off-chain
(NotFoundError), read the on-chain capacity (`capRead`, `none` models a
failed read surfaced as OnChainError), count the fish currently
assigned to the tank off-chain, and fail with ConflictError exactly
when occupancy plus the additional count exceeds the capacity.  It is a
pure admission check with no side effects. -/
def checkTankCapacity (capRead : Option Nat) (st : GameState)
    (tankId : Int) (additionalCount : Nat) : Except ApiError Unit :=
  if tankId < 1 then
    .error (.validationError "Tank ID must be a positive integer")
  else if !(st.tanks.any (fun t => (t.id : Int) == tankId)) then
    .error (.notFoundError "Tank not found")
  else
    match capRead with
    | none => .error (.onChainError "Failed to read tank capacity on-chain")
    | some capacity =>
      let occupancy := (st.fishes.filter (fun f => (f.tank_id : Int) == tankId)).length
      if capacity < occupancy + additionalCount then
        .error (.conflictError "Tank is at capacity")
      else
        .ok ()

-- ===========================================================================
-- Lineage engine (spec §4.4 and tests/core/utils/fish-genealogy.test.ts)
-- ===========================================================================

/-- Row of the fish table as seen by the lineage engine: id and the two
nullable self-referential parent pointers. -/
structure FishRow where
  id : Nat
  parent1 : Option Nat
  parent2 : Option Nat
  deriving Repr, DecidableEq

/-- One member of a family-tree array: a fish id with its generation
number relative to the root. -/
structure TreeEntry where
  id : Nat
  generation : Nat
  deriving Repr, DecidableEq

/-- Result shape of buildFishFamilyTree. -/
structure FamilyTree where
  fish_id : Nat
  ancestors : List TreeEntry
  descendants : List TreeEntry
  generation_count : Nat
  descendant_generation_count : Nat
  deriving Repr, DecidableEq

/-- Hard cap on ancestor generations (the spec's fixed maximum depth
constant). -/
def MAX_GENERATION_DEPTH : Nat := 50

/-- Lookup of a fish row by id. -/
def findFish (db : List FishRow) (id : Nat) : Option FishRow :=
  db.find? (fun f => f.id == id)

/-- Depth-first ancestor walk along one parent pointer.  A `none`
pointer or an already-visited or missing parent ends the branch; an
unvisited parent is recorded at its generation and its own two parents
are walked at the next generation.  A generation above the cap is a
fatal condition; the fuel only mirrors the cap so the recursion is
structural (the initial fuel exceeds the cap, so the cap check always
fires first). -/
def visitParent (db : List FishRow) :
    Nat → List Nat → List TreeEntry → Option Nat → Nat →
    Except ApiError (List Nat × List TreeEntry)
  | _, visited, acc, none, _ => .ok (visited, acc)
  | 0, _, _, some _, _ => .error (.genericError "Max generation depth exceeded")
  | fuel + 1, visited, acc, some pid, gen =>
    if visited.contains pid then .ok (visited, acc)
    else
      match findFish db pid with
      | none => .ok (visited, acc)
      | some row =>
        if MAX_GENERATION_DEPTH < gen then
          .error (.genericError "Max generation depth exceeded")
        else
          match visitParent db fuel (pid :: visited) (acc ++ [⟨pid, gen⟩])
              row.parent1 (gen + 1) with
          | .error e => .error e
          | .ok (v1, a1) => visitParent db fuel v1 a1 row.parent2 (gen + 1)

/-- Fish whose either parent pointer lies in the given frontier of ids. -/
def childrenOf (db : List FishRow) (frontier : List Nat) : List FishRow :=
  db.filter (fun f =>
    (match f.parent1 with | some p => frontier.contains p | none => false) ||
    (match f.parent2 with | some p => frontier.contains p | none => false))

/-- Breadth-first descendant walk, level by level: each level holds the
not-yet-visited fish with a parent in the previous level, and the walk
stops at the first empty level.  The fuel `db.length + 1` suffices
because every continued level adds at least one new visited id drawn
from the finite table.  Returns the entries and the number of levels. -/
def descWalk (db : List FishRow) :
    Nat → List Nat → List Nat → Nat → List TreeEntry × Nat
  | 0, _, _, gen => ([], gen)
  | fuel + 1, visited, frontier, gen =>
    let next := (childrenOf db frontier).filter (fun f => !(visited.contains f.id))
    match next with
    | [] => ([], gen)
    | _ =>
      let ids := next.map (fun f => f.id)
      let (rest, g) := descWalk db fuel (visited ++ ids) ids (gen + 1)
      (next.map (fun f => ⟨f.id, gen + 1⟩) ++ rest, g)

/-- Modelled from the spec: `buildFishFamilyTree`
(src/core/utils/fish-genealogy.ts) is absent from the source tree (only
its tests exist), so this follows spec §4.4: validate the root id,
fetch the root (NotFoundError when absent), run the ancestor walk with
the visited set seeded with the root (the root itself is generation 0)
and the descendant walk with its own visited set, and report the
maximum ancestor generation and the number of descendant levels. -/
def buildFishFamilyTree (db : List FishRow) (rootId : Int) :
    Except ApiError FamilyTree :=
  if rootId < 1 then
    .error (.validationError "Fish ID must be a positive integer")
  else
    let rid := rootId.toNat
    match findFish db rid with
    | none => .error (.notFoundError "Fish not found")
    | some root =>
      match visitParent db (MAX_GENERATION_DEPTH + 2) [rid] [⟨rid, 0⟩] root.parent1 1 with
      | .error e => .error e
      | .ok (v1, a1) =>
        match visitParent db (MAX_GENERATION_DEPTH + 2) v1 a1 root.parent2 1 with
        | .error e => .error e
        | .ok (_, ancestors) =>
          let dw := descWalk db (db.length + 1) [rid] [rid] 0
          .ok ⟨rid, ancestors, dw.1,
            (ancestors.map (fun e => e.generation)).foldl max 0, dw.2⟩

example :
    buildFishFamilyTree [⟨1, some 10, none⟩, ⟨10, some 100, none⟩, ⟨100, none, none⟩] 1 =
    .ok ⟨1, [⟨1, 0⟩, ⟨10, 1⟩, ⟨100, 2⟩], [], 2, 0⟩ := by decide

example :
    buildFishFamilyTree [⟨1, some 10, none⟩, ⟨10, some 1, none⟩] 1 =
    .ok ⟨1, [⟨1, 0⟩, ⟨10, 1⟩], [⟨10, 1⟩], 1, 1⟩ := by decide

-- ===========================================================================
-- Helper lemmas
-- ===========================================================================

/-- Updating status and retry count of the rows matching a tx hash
commutes with lookup by that tx hash. -/
lemma findSync_update (db : List SyncRow) (key s : String) (n : Nat) :
    findSync (db.map (fun r =>
        if r.tx_hash == key then { r with status := s, retry_count := n } else r)) key
      = Option.map (fun r => { r with status := s, retry_count := n }) (findSync db key) := by
  induction db with
  | nil => rfl
  | cons r rs ih =>
    by_cases h : r.tx_hash == key
    · simp [findSync, List.find?, h]
    · simpa [findSync, List.find?, h] using ih

-- ===========================================================================
-- Claim theorems
-- ===========================================================================

/-- Claim C4: for every existing sync-queue entry, updating its status
to failed writes a retry count equal to the currently stored retry
count plus one, both in the returned item and in the store, while
updating to confirmed leaves the stored retry count unchanged. -/
theorem updateSyncStatus_retry_semantics :
    ∀ (db : List SyncRow) (h : String) (row : SyncRow),
      jsTrim h ≠ "" →
      findSync db (jsTrim h) = some row →
      (∃ r' db', updateSyncStatus db h "failed" = .ok (r', db') ∧
        r'.retry_count = row.retry_count + 1 ∧ r'.status = "failed" ∧
        findSync db' (jsTrim h) = some r') ∧
      (∃ r' db', updateSyncStatus db h "confirmed" = .ok (r', db') ∧
        r'.retry_count = row.retry_count ∧ r'.status = "confirmed" ∧
        findSync db' (jsTrim h) = some r') := by
  intro db h row hne hfind
  have hfind' : db.find? (fun r => r.tx_hash == jsTrim h) = some row := hfind
  have hp := List.find?_some hfind'
  constructor
  · have hrun : updateSyncStatus db h "failed" = .ok
        ({ row with status := "failed", retry_count := row.retry_count + 1 },
         db.map fun r => if r.tx_hash == jsTrim h then
           { r with status := "failed", retry_count := row.retry_count + 1 } else r) := by
      simp [updateSyncStatus, hne, validStatuses, hfind]
    refine ⟨_, _, hrun, rfl, rfl, ?_⟩
    rw [findSync_update, hfind]
    simp [hp]
  · have hrun : updateSyncStatus db h "confirmed" = .ok
        ({ row with status := "confirmed", retry_count := row.retry_count },
         db.map fun r => if r.tx_hash == jsTrim h then
           { r with status := "confirmed", retry_count := row.retry_count } else r) := by
      simp [updateSyncStatus, hne, validStatuses, hfind]
    refine ⟨_, _, hrun, rfl, rfl, ?_⟩
    rw [findSync_update, hfind]
    simp [hp]

/-- Claim C4 witness at a concrete store. -/
theorem updateSyncStatus_retry_semantics_witness :
    (∃ r' db', updateSyncStatus [⟨1, "0xa", "fish", "1", "pending", 3, 0, 0⟩] "0xa" "failed"
        = .ok (r', db') ∧
      r'.retry_count = 3 + 1 ∧ r'.status = "failed" ∧
      findSync db' (jsTrim "0xa") = some r') ∧
    (∃ r' db', updateSyncStatus [⟨1, "0xa", "fish", "1", "pending", 3, 0, 0⟩] "0xa" "confirmed"
        = .ok (r', db') ∧
      r'.retry_count = 3 ∧ r'.status = "confirmed" ∧
      findSync db' (jsTrim "0xa") = some r') :=
  updateSyncStatus_retry_semantics [⟨1, "0xa", "fish", "1", "pending", 3, 0, 0⟩] "0xa"
    ⟨1, "0xa", "fish", "1", "pending", 3, 0, 0⟩ (by decide) (by decide)

/-- Claim C10: updateSyncStatus accepts pending as a target status: for
every existing entry it succeeds (no ValidationError), sets the status
back to pending whatever the current status was, and leaves the retry
count unchanged. -/
theorem updateSyncStatus_accepts_pending :
    ∀ (db : List SyncRow) (h : String) (row : SyncRow),
      jsTrim h ≠ "" →
      findSync db (jsTrim h) = some row →
      ∃ r' db', updateSyncStatus db h "pending" = .ok (r', db') ∧
        r'.status = "pending" ∧ r'.retry_count = row.retry_count ∧
        findSync db' (jsTrim h) = some r' := by
  intro db h row hne hfind
  have hfind' : db.find? (fun r => r.tx_hash == jsTrim h) = some row := hfind
  have hp := List.find?_some hfind'
  have hrun : updateSyncStatus db h "pending" = .ok
      ({ row with status := "pending", retry_count := row.retry_count },
       db.map fun r => if r.tx_hash == jsTrim h then
         { r with status := "pending", retry_count := row.retry_count } else r) := by
    simp [updateSyncStatus, hne, validStatuses, hfind]
  refine ⟨_, _, hrun, rfl, rfl, ?_⟩
  rw [findSync_update, hfind]
  simp [hp]

/-- Claim C10 witness: a confirmed entry moved back to pending. -/
theorem updateSyncStatus_accepts_pending_witness :
    ∃ r' db', updateSyncStatus [⟨1, "0xa", "fish", "1", "confirmed", 2, 0, 0⟩] "0xa" "pending"
        = .ok (r', db') ∧
      r'.status = "pending" ∧ r'.retry_count = 2 ∧
      findSync db' (jsTrim "0xa") = some r' :=
  updateSyncStatus_accepts_pending [⟨1, "0xa", "fish", "1", "confirmed", 2, 0, 0⟩] "0xa"
    ⟨1, "0xa", "fish", "1", "confirmed", 2, 0, 0⟩ (by decide) (by decide)

/-- Claim C5: with valid inputs, enqueueing hits the unique constraint
when the tx hash is already present and translates it to a
ValidationError; any other storage failure surfaces as a generic error;
and a successful insert yields a row with status pending and retry
count zero. -/
theorem addToSyncQueue_error_translation :
    ∀ (db : List SyncRow) (txHash entityType entityId : String) (nextId now : Nat),
      jsTrim txHash ≠ "" → entityType ∈ validEntityTypes → jsTrim entityId ≠ "" →
      ((∃ r ∈ db, r.tx_hash = jsTrim txHash) →
        ∃ m, addToSyncQueue none db txHash entityType entityId nextId now
          = .error (.validationError m)) ∧
      (∀ f, ∃ m, addToSyncQueue (some f) db txHash entityType entityId nextId now
          = .error (.genericError m)) ∧
      ((∀ r ∈ db, r.tx_hash ≠ jsTrim txHash) →
        ∃ row db', addToSyncQueue none db txHash entityType entityId nextId now
          = .ok (row, db') ∧ row.status = "pending" ∧ row.retry_count = 0) := by
  intro db txHash entityType entityId nextId now hh ht hi
  refine ⟨?_, ?_, ?_⟩
  · intro hdup
    have hany : db.any (fun r => r.tx_hash == jsTrim txHash) = true := by
      obtain ⟨r, hr, he⟩ := hdup
      simp only [List.any_eq_true]
      exact ⟨r, hr, by simp [he]⟩
    exact ⟨"Transaction hash already exists in sync queue",
      by simp [addToSyncQueue, hh, ht, hi, hany]⟩
  · intro f
    exact ⟨"Failed to add entry to sync queue: " ++ f,
      by simp [addToSyncQueue, hh, ht, hi]⟩
  · intro hno
    have hany : db.any (fun r => r.tx_hash == jsTrim txHash) = false := by
      simp only [List.any_eq_false]
      intro r hr
      simpa using hno r hr
    refine ⟨⟨nextId, jsTrim txHash, entityType, jsTrim entityId, "pending", 0, now, now⟩,
      db ++ [⟨nextId, jsTrim txHash, entityType, jsTrim entityId, "pending", 0, now, now⟩],
      by simp [addToSyncQueue, hh, ht, hi, hany], rfl, rfl⟩

/-- Claim C5 witness: duplicate enqueue, injected storage failure, and
fresh enqueue at a concrete store. -/
theorem addToSyncQueue_error_translation_witness :
    ((∃ r ∈ [(⟨1, "0xa", "fish", "1", "pending", 0, 0, 0⟩ : SyncRow)],
        r.tx_hash = jsTrim "0xa") →
      ∃ m, addToSyncQueue none [⟨1, "0xa", "fish", "1", "pending", 0, 0, 0⟩]
          "0xa" "fish" "1" 2 1 = .error (.validationError m)) ∧
    (∀ f, ∃ m, addToSyncQueue (some f) [⟨1, "0xa", "fish", "1", "pending", 0, 0, 0⟩]
          "0xa" "fish" "1" 2 1 = .error (.genericError m)) ∧
    ((∀ r ∈ [(⟨1, "0xa", "fish", "1", "pending", 0, 0, 0⟩ : SyncRow)],
        r.tx_hash ≠ jsTrim "0xb") →
      ∃ row db', addToSyncQueue none [⟨1, "0xa", "fish", "1", "pending", 0, 0, 0⟩]
          "0xb" "fish" "1" 2 1 = .ok (row, db') ∧
        row.status = "pending" ∧ row.retry_count = 0) :=
  ⟨(addToSyncQueue_error_translation [⟨1, "0xa", "fish", "1", "pending", 0, 0, 0⟩]
      "0xa" "fish" "1" 2 1 (by decide) (by decide) (by decide)).1,
   (addToSyncQueue_error_translation [⟨1, "0xa", "fish", "1", "pending", 0, 0, 0⟩]
      "0xa" "fish" "1" 2 1 (by decide) (by decide) (by decide)).2.1,
   (addToSyncQueue_error_translation [⟨1, "0xa", "fish", "1", "pending", 0, 0, 0⟩]
      "0xb" "fish" "1" 2 1 (by decide) (by decide) (by decide)).2.2⟩

/-- Claim C8: getPendingSyncs returns exactly the entries with status
pending (as a permutation of the filtered store), ordered by creation
time ascending, and yields the empty list, not an error, when no
pending entries exist. -/
theorem getPendingSyncs_ordered_pending :
    ∀ db : List SyncRow, ∃ l, getPendingSyncs none db = .ok l ∧
      List.Perm l (db.filter (fun r => r.status == "pending")) ∧
      List.Pairwise createdLE l ∧
      (db.filter (fun r => r.status == "pending") = [] → l = []) := by
  intro db
  refine ⟨List.insertionSort createdLE (db.filter (fun r => r.status == "pending")),
    rfl, ?_, ?_, ?_⟩
  · exact List.perm_insertionSort _ _
  · exact List.sorted_insertionSort _ _
  · intro hempty
    rw [hempty]
    rfl

/-- Claim C8 witness: a concrete store with one pending and one
confirmed entry, and the empty-store case. -/
theorem getPendingSyncs_ordered_pending_witness :
    (∃ l, getPendingSyncs none
        [(⟨1, "0xa", "fish", "1", "confirmed", 0, 0, 0⟩ : SyncRow),
         ⟨2, "0xb", "fish", "2", "pending", 0, 1, 1⟩] = .ok l ∧
      List.Perm l (([(⟨1, "0xa", "fish", "1", "confirmed", 0, 0, 0⟩ : SyncRow),
         ⟨2, "0xb", "fish", "2", "pending", 0, 1, 1⟩]).filter
           (fun r => r.status == "pending")) ∧
      List.Pairwise createdLE l ∧
      (([(⟨1, "0xa", "fish", "1", "confirmed", 0, 0, 0⟩ : SyncRow),
         ⟨2, "0xb", "fish", "2", "pending", 0, 1, 1⟩]).filter
           (fun r => r.status == "pending") = [] → l = [])) ∧
    getPendingSyncs none [⟨1, "0xa", "fish", "1", "confirmed", 0, 0, 0⟩] = .ok [] :=
  ⟨getPendingSyncs_ordered_pending
      [⟨1, "0xa", "fish", "1", "confirmed", 0, 0, 0⟩,
       ⟨2, "0xb", "fish", "2", "pending", 0, 1, 1⟩], by decide⟩

/-- Claim C3: for every existing tank and successful on-chain capacity
read, checkTankCapacity fails with ConflictError exactly when the
off-chain occupancy plus the additional count strictly exceeds the
capacity, and succeeds without error when the sum equals the capacity. -/
theorem checkTankCapacity_conflict_iff :
    ∀ (st : GameState) (tankId : Int) (n cap : Nat),
      1 ≤ tankId →
      st.tanks.any (fun t => (t.id : Int) == tankId) = true →
      ((∃ m, checkTankCapacity (some cap) st tankId n = .error (.conflictError m)) ↔
        cap < (st.fishes.filter (fun f => (f.tank_id : Int) == tankId)).length + n) ∧
      ((st.fishes.filter (fun f => (f.tank_id : Int) == tankId)).length + n = cap →
        checkTankCapacity (some cap) st tankId n = .ok ()) := by
  intro st tankId n cap hpos hex
  have hnlt : ¬ tankId < 1 := not_lt.mpr hpos
  constructor
  · constructor
    · intro hconf
      obtain ⟨m, hm⟩ := hconf
      by_contra hle
      simp [checkTankCapacity, hnlt, hex, hle] at hm
    · intro hlt
      exact ⟨"Tank is at capacity", by simp [checkTankCapacity, hnlt, hex, hlt]⟩
  · intro heq
    have hle : ¬ cap < (st.fishes.filter (fun f => (f.tank_id : Int) == tankId)).length + n := by
      omega
    simp [checkTankCapacity, hnlt, hex, hle]

/-- Claim C3 witness: a tank of capacity 2 holding one fish accepts one
more fish (exact equality) and rejects two more. -/
theorem checkTankCapacity_conflict_iff_witness :
    ((∃ m, checkTankCapacity (some 2)
        ⟨[], [⟨1, "0x1", "t"⟩], [⟨7, "0x1", 1⟩]⟩ 1 2 = .error (.conflictError m)) ↔
      2 < ((⟨[], [⟨1, "0x1", "t"⟩], [⟨7, "0x1", 1⟩]⟩ : GameState).fishes.filter
        (fun f => (f.tank_id : Int) == 1)).length + 2) ∧
    (((⟨[], [⟨1, "0x1", "t"⟩], [⟨7, "0x1", 1⟩]⟩ : GameState).fishes.filter
        (fun f => (f.tank_id : Int) == 1)).length + 1 = 2 →
      checkTankCapacity (some 2) ⟨[], [⟨1, "0x1", "t"⟩], [⟨7, "0x1", 1⟩]⟩ 1 1 = .ok ()) :=
  ⟨(checkTankCapacity_conflict_iff ⟨[], [⟨1, "0x1", "t"⟩], [⟨7, "0x1", 1⟩]⟩ 1 2 2
      (by decide) (by decide)).1,
   (checkTankCapacity_conflict_iff ⟨[], [⟨1, "0x1", "t"⟩], [⟨7, "0x1", 1⟩]⟩ 1 1 2
      (by decide) (by decide)).2⟩

/-- Claim C7: when the on-chain registration call fails after the
off-chain insert, registerPlayer raises OnChainError and the newly
inserted off-chain row persists in the players table. -/
theorem registerPlayer_onchain_failure_keeps_row :
    ∀ (db : List PlayerRow) (a : String),
      jsTrim a ≠ "" →
      findPlayer db a = none →
      db.any (fun r => r.address == jsTrim a) = false →
      registerPlayer false db a =
        ⟨.error (.onChainError "Failed to register player on-chain"),
         db ++ [⟨jsTrim a, 0, 0, 0, 0, 0, none⟩], true⟩ := by
  intro db a hval hfind hdup
  simp [registerPlayer, hval, hfind, hdup]

/-- Claim C7 witness at the empty store. -/
theorem registerPlayer_onchain_failure_keeps_row_witness :
    registerPlayer false [] "0xabc" =
      ⟨.error (.onChainError "Failed to register player on-chain"),
       [] ++ [⟨jsTrim "0xabc", 0, 0, 0, 0, 0, none⟩], true⟩ :=
  registerPlayer_onchain_failure_keeps_row [] "0xabc" (by decide) (by decide) (by decide)

/-- Claim C9: for a whitespace-padded address, registerPlayer looks the
player up under the untrimmed address but inserts the row under the
trimmed address, so the stored address differs from the lookup key and
a later lookup under the padded form finds nothing, leaving the
idempotent fast path untriggered. -/
theorem registerPlayer_lookup_insert_mismatch :
    ∀ (chainOk : Bool) (db : List PlayerRow) (a : String),
      jsTrim a ≠ "" →
      jsTrim a ≠ a →
      findPlayer db a = none →
      db.any (fun r => r.address == jsTrim a) = false →
      (registerPlayer chainOk db a).players = db ++ [⟨jsTrim a, 0, 0, 0, 0, 0, none⟩] ∧
      findPlayer (registerPlayer chainOk db a).players a = none := by
  intro chainOk db a hval hmis hfind hdup
  have hplayers : (registerPlayer chainOk db a).players =
      db ++ [⟨jsTrim a, 0, 0, 0, 0, 0, none⟩] := by
    cases chainOk <;> simp [registerPlayer, hval, hfind, hdup]
  refine ⟨hplayers, ?_⟩
  rw [hplayers]
  have hfind' : db.find? (fun r => r.address == a) = none := hfind
  simp only [findPlayer, List.find?_append, hfind', Option.none_orElse]
  simp [hmis]

/-- Claim C9 witness: a padded address whose row is stored trimmed and
invisible to a lookup under the padded form. -/
theorem registerPlayer_lookup_insert_mismatch_witness :
    (registerPlayer true [] " 0xabc").players =
      [] ++ [⟨jsTrim " 0xabc", 0, 0, 0, 0, 0, none⟩] ∧
    findPlayer (registerPlayer true [] " 0xabc").players " 0xabc" = none :=
  registerPlayer_lookup_insert_mismatch true [] " 0xabc"
    (by decide) (by decide) (by decide) (by decide)

/-- Claim C1 counterexample: the whitespace-padded address " a" is
valid (non-empty after trimming); the first registerPlayer call
succeeds and stores the trimmed address, but the second call with the
same padded address misses the lookup, re-attempts the insert, and
fails with a generic duplicate-key error instead of returning the same
off-chain identity. -/
theorem registerPlayer_padded_not_idempotent :
    jsTrim " a" ≠ "" ∧
    (registerPlayer true [] " a").result = .ok ⟨"a", 0, 0, 0, 0, 0, none⟩ ∧
    (registerPlayer true (registerPlayer true [] " a").players " a").result =
      .error (.genericError "Failed to create player in Supabase: duplicate key") := by
  decide

/-- Claim C1 (amended): when the lookup by the exact untrimmed address
finds a row, registerPlayer returns it unchanged without any on-chain
call; and for a valid address equal to its trimmed form, a successful
call followed by a second call returns the same off-chain identity with
no on-chain call and no store change. -/
theorem registerPlayer_existing_row_idempotent :
    (∀ (chainOk : Bool) (db : List PlayerRow) (a : String) (row : PlayerRow),
      jsTrim a ≠ "" →
      findPlayer db a = some row →
      registerPlayer chainOk db a = ⟨.ok row, db, false⟩) ∧
    (∀ (db : List PlayerRow) (a : String) (r : PlayerRow),
      jsTrim a = a →
      (registerPlayer true db a).result = .ok r →
      registerPlayer true (registerPlayer true db a).players a =
        ⟨.ok r, (registerPlayer true db a).players, false⟩) := by
  constructor
  · intro chainOk db a row hval hfind
    simp [registerPlayer, hval, hfind]
  · intro db a r htrim hok
    by_cases hval : jsTrim a = ""
    · simp [registerPlayer, hval] at hok
    · cases hfind : findPlayer db a with
      | some row =>
        have hrun : registerPlayer true db a = ⟨.ok row, db, false⟩ := by
          simp [registerPlayer, hval, hfind]
        rw [hrun] at hok ⊢
        simp only [Except.ok.injEq] at hok
        rw [← hok]
        exact hrun
      | none =>
        by_cases hdup : db.any (fun q => q.address == jsTrim a) = true
        · simp [registerPlayer, hval, hfind, hdup] at hok
        · have hdup' : db.any (fun q => q.address == jsTrim a) = false :=
            by simpa using hdup
          have hrun : registerPlayer true db a =
              ⟨.ok ⟨jsTrim a, 0, 0, 0, 0, 0, none⟩,
               db ++ [⟨jsTrim a, 0, 0, 0, 0, 0, none⟩], true⟩ := by
            simp [registerPlayer, hval, hfind, hdup']
          rw [hrun] at hok ⊢
          simp only [Except.ok.injEq] at hok
          have hfind2 : findPlayer (db ++ [⟨jsTrim a, 0, 0, 0, 0, 0, none⟩]) a =
              some ⟨jsTrim a, 0, 0, 0, 0, 0, none⟩ := by
            have hfindraw : db.find? (fun q => q.address == a) = none := hfind
            simp only [findPlayer, List.find?_append, hfindraw, Option.none_orElse]
            simp [htrim]
          rw [← hok]
          simp [registerPlayer, hval, hfind2]

/-- Claim C1 witness: fast path and idempotence at concrete stores. -/
theorem registerPlayer_existing_row_idempotent_witness :
    registerPlayer true [⟨"0xabc", 7, 2, 0, 0, 0, none⟩] "0xabc" =
      ⟨.ok ⟨"0xabc", 7, 2, 0, 0, 0, none⟩, [⟨"0xabc", 7, 2, 0, 0, 0, none⟩], false⟩ ∧
    registerPlayer true (registerPlayer true [] "0xabc").players "0xabc" =
      ⟨.ok ⟨"0xabc", 0, 0, 0, 0, 0, none⟩, (registerPlayer true [] "0xabc").players, false⟩ :=
  ⟨registerPlayer_existing_row_idempotent.1 true [⟨"0xabc", 7, 2, 0, 0, 0, none⟩]
      "0xabc" ⟨"0xabc", 7, 2, 0, 0, 0, none⟩ (by decide) (by decide),
   registerPlayer_existing_row_idempotent.2 [] "0xabc" ⟨"0xabc", 0, 0, 0, 0, 0, none⟩
      (by decide) (by decide)⟩

/-- Rewriting a player's stored fish count does not change which
addresses are present. -/
lemma setFishCount_any (ps : List PlayerRow) (a : String) (n : Nat) :
    (setFishCount ps a n).any (fun p => p.address == a) =
      ps.any (fun p => p.address == a) := by
  unfold setFishCount
  rw [List.any_map]
  congr 1
  funext q
  by_cases hq : q.address == a <;> simp [Function.comp, hq]

/-- The starter-pack guard: a tank already owned by the address makes
mintStarterPack fail with ConflictError, leaving the store untouched
and the chain uncalled. -/
lemma mintStarterPack_conflict (c : Chain) (st : GameState) (a : String)
    (h1 : jsTrim a ≠ "") (h2 : st.players.any (fun p => p.address == a) = true)
    (h3 : st.tanks.any (fun t => t.owner == a) = true) :
    mintStarterPack c st a =
      ⟨.error (.conflictError "Player already has a starter pack"), st, 0, 0⟩ := by
  simp [mintStarterPack, h1, h2, h3]

/-- A successful mintStarterPack run implies the address was valid, the
player existed, and the resulting store still holds the player and now
holds a tank owned by the address. -/
lemma mintStarterPack_ok_shape (c : Chain) (st : GameState) (a : String)
    (p : Nat × List Nat) (h : (mintStarterPack c st a).result = .ok p) :
    jsTrim a ≠ "" ∧
    (mintStarterPack c st a).state.players.any (fun q => q.address == a) = true ∧
    (mintStarterPack c st a).state.tanks.any (fun t => t.owner == a) = true := by
  by_cases h1 : jsTrim a = ""
  · simp [mintStarterPack, h1] at h
  by_cases h2 : st.players.any (fun q => q.address == a) = true
  case neg =>
    have h2f : st.players.any (fun q => q.address == a) = false := by simpa using h2
    simp [mintStarterPack, h1, h2f] at h
  by_cases h3 : st.tanks.any (fun t => t.owner == a) = true
  case pos => simp [mintStarterPack, h1, h2, h3] at h
  have h3f : st.tanks.any (fun t => t.owner == a) = false := by simpa using h3
  cases hmt : c.mintTank with
  | none => simp [mintStarterPack, h1, h2, h3f, hmt] at h
  | some tid =>
    cases hf0 : c.mintFish 0 with
    | none => simp [mintStarterPack, h1, h2, h3f, hmt, hf0] at h
    | some f1 =>
      cases hf1 : c.mintFish 1 with
      | none => simp [mintStarterPack, h1, h2, h3f, hmt, hf0, hf1] at h
      | some f2 =>
        refine ⟨h1, ?_, ?_⟩
        · simp [mintStarterPack, h1, h2, h3f, hmt, hf0, hf1, setFishCount_any]
        · simp [mintStarterPack, h1, h2, h3f, hmt, hf0, hf1, List.any_append]

/-- Claim C2: when a tank owned by the address already exists,
mintStarterPack fails with ConflictError, mints nothing on-chain and
inserts nothing off-chain; hence after a successful run, a second
sequential run for the same address fails with ConflictError with no
further mints and no store change. -/
theorem mintStarterPack_at_most_once :
    (∀ (c : Chain) (st : GameState) (a : String),
      jsTrim a ≠ "" →
      st.players.any (fun p => p.address == a) = true →
      st.tanks.any (fun t => t.owner == a) = true →
      mintStarterPack c st a =
        ⟨.error (.conflictError "Player already has a starter pack"), st, 0, 0⟩) ∧
    (∀ (c c' : Chain) (st : GameState) (a : String) (p : Nat × List Nat),
      (mintStarterPack c st a).result = .ok p →
      mintStarterPack c' (mintStarterPack c st a).state a =
        ⟨.error (.conflictError "Player already has a starter pack"),
         (mintStarterPack c st a).state, 0, 0⟩) := by
  constructor
  · exact mintStarterPack_conflict
  · intro c c' st a p hok
    obtain ⟨h1, hpl, htk⟩ := mintStarterPack_ok_shape c st a p hok
    exact mintStarterPack_conflict c' _ a h1 hpl htk

/-- Claim C2 witness: a concrete successful first run followed by a
conflicting second run. -/
theorem mintStarterPack_at_most_once_witness :
    mintStarterPack ⟨some 1, fun n => some (n + 10)⟩
        (mintStarterPack ⟨some 1, fun n => some (n + 10)⟩
          ⟨[⟨"0x1", 0, 0, 0, 0, 0, none⟩], [], []⟩ "0x1").state "0x1" =
      ⟨.error (.conflictError "Player already has a starter pack"),
       (mintStarterPack ⟨some 1, fun n => some (n + 10)⟩
          ⟨[⟨"0x1", 0, 0, 0, 0, 0, none⟩], [], []⟩ "0x1").state, 0, 0⟩ :=
  mintStarterPack_at_most_once.2 ⟨some 1, fun n => some (n + 10)⟩
    ⟨some 1, fun n => some (n + 10)⟩ ⟨[⟨"0x1", 0, 0, 0, 0, 0, none⟩], [], []⟩
    "0x1" (1, [10, 11]) (by decide)

/-- Invariant of the ancestor walk: starting from an accumulator with
distinct ids all covered by the visited set, a successful walk returns
an accumulator with distinct ids all covered by the final visited set,
which extends the initial one. -/
lemma visitParent_nodup (db : List FishRow) :
    ∀ (fuel : Nat) (visited : List Nat) (acc : List TreeEntry) (pid? : Option Nat)
      (gen : Nat) (v' : List Nat) (acc' : List TreeEntry),
      visitParent db fuel visited acc pid? gen = .ok (v', acc') →
      (acc.map TreeEntry.id).Nodup →
      (∀ e ∈ acc, e.id ∈ visited) →
      (acc'.map TreeEntry.id).Nodup ∧ (∀ e ∈ acc', e.id ∈ v') ∧
        (∀ x ∈ visited, x ∈ v') := by
  intro fuel
  induction fuel with
  | zero =>
    intro visited acc pid? gen v' acc' h hnd hmem
    cases pid? with
    | none =>
      simp only [visitParent, Except.ok.injEq, Prod.mk.injEq] at h
      obtain ⟨rfl, rfl⟩ := h
      exact ⟨hnd, hmem, fun x hx => hx⟩
    | some pid => simp [visitParent] at h
  | succ fuel ih =>
    intro visited acc pid? gen v' acc' h hnd hmem
    cases pid? with
    | none =>
      simp only [visitParent, Except.ok.injEq, Prod.mk.injEq] at h
      obtain ⟨rfl, rfl⟩ := h
      exact ⟨hnd, hmem, fun x hx => hx⟩
    | some pid =>
      simp only [visitParent] at h
      by_cases hv : visited.contains pid = true
      · rw [if_pos hv] at h
        simp only [Except.ok.injEq, Prod.mk.injEq] at h
        obtain ⟨rfl, rfl⟩ := h
        exact ⟨hnd, hmem, fun x hx => hx⟩
      · rw [if_neg hv] at h
        have hpidnot : pid ∉ visited := by simpa using hv
        cases hf : findFish db pid with
        | none =>
          rw [hf] at h
          simp only [Except.ok.injEq, Prod.mk.injEq] at h
          obtain ⟨rfl, rfl⟩ := h
          exact ⟨hnd, hmem, fun x hx => hx⟩
        | some row =>
          rw [hf] at h
          dsimp only at h
          by_cases hg : MAX_GENERATION_DEPTH < gen
          · rw [if_pos hg] at h
            simp at h
          · rw [if_neg hg] at h
            cases h1 : visitParent db fuel (pid :: visited) (acc ++ [⟨pid, gen⟩])
                row.parent1 (gen + 1) with
            | error e => rw [h1] at h; simp at h
            | ok pr =>
              rw [h1] at h
              obtain ⟨v1, a1⟩ := pr
              dsimp only at h
              have hnd0 : ((acc ++ [(⟨pid, gen⟩ : TreeEntry)]).map TreeEntry.id).Nodup := by
                simp only [List.map_append, List.map_cons, List.map_nil]
                rw [List.nodup_append]
                refine ⟨hnd, List.nodup_singleton _, ?_⟩
                intro x hx
                simp only [List.mem_map] at hx
                obtain ⟨e, he, rfl⟩ := hx
                simp only [List.mem_singleton]
                intro hcontra
                exact hpidnot (hcontra ▸ hmem e he)
              have hmem0 : ∀ e ∈ acc ++ [(⟨pid, gen⟩ : TreeEntry)],
                  e.id ∈ pid :: visited := by
                intro e he
                rcases List.mem_append.mp he with hacc | hone
                · exact List.mem_cons_of_mem _ (hmem e hacc)
                · simp only [List.mem_singleton] at hone
                  subst hone
                  exact List.mem_cons_self _ _
              obtain ⟨hnd1, hmem1, hsub1⟩ := ih _ _ _ _ _ _ h1 hnd0 hmem0
              obtain ⟨hnd2, hmem2, hsub2⟩ := ih _ _ _ _ _ _ h hnd1 hmem1
              exact ⟨hnd2, hmem2, fun x hx =>
                hsub2 x (hsub1 x (List.mem_cons_of_mem _ hx))⟩

/-- Claim C6: buildFishFamilyTree is a total function (its traversals
are bounded by the visited sets and the generation cap, so it
terminates on every lineage table, cyclic or not), and whenever it
returns a tree no fish id occurs more than once in the ancestors
array. -/
theorem buildFishFamilyTree_ancestors_nodup :
    ∀ (db : List FishRow) (rootId : Int) (t : FamilyTree),
      buildFishFamilyTree db rootId = .ok t →
      (t.ancestors.map TreeEntry.id).Nodup := by
  intro db rootId t h
  by_cases hlt : rootId < 1
  · simp [buildFishFamilyTree, hlt] at h
  · simp only [buildFishFamilyTree, if_neg hlt] at h
    cases hroot : findFish db rootId.toNat with
    | none => rw [hroot] at h; simp at h
    | some root =>
      rw [hroot] at h
      dsimp only at h
      cases h1 : visitParent db (MAX_GENERATION_DEPTH + 2) [rootId.toNat]
          [⟨rootId.toNat, 0⟩] root.parent1 1 with
      | error e => rw [h1] at h; simp at h
      | ok pr1 =>
        rw [h1] at h
        obtain ⟨v1, a1⟩ := pr1
        dsimp only at h
        cases h2 : visitParent db (MAX_GENERATION_DEPTH + 2) v1 a1 root.parent2 1 with
        | error e => rw [h2] at h; simp at h
        | ok pr2 =>
          rw [h2] at h
          obtain ⟨v2, anc⟩ := pr2
          dsimp only at h
          simp only [Except.ok.injEq] at h
          obtain ⟨hnd1, hmem1, _⟩ := visitParent_nodup db _ _ _ _ _ _ _ h1
            (by simp) (by simp)
          obtain ⟨hnd2, _, _⟩ := visitParent_nodup db _ _ _ _ _ _ _ h2 hnd1 hmem1
          rw [← h]
          exact hnd2

/-- Claim C6 witness: the direct two-node parent cycle from the test
suite yields distinct ancestor ids. -/
theorem buildFishFamilyTree_ancestors_nodup_witness :
    (((⟨1, [⟨1, 0⟩, ⟨10, 1⟩], [⟨10, 1⟩], 1, 1⟩ : FamilyTree).ancestors.map
      TreeEntry.id)).Nodup :=
  buildFishFamilyTree_ancestors_nodup [⟨1, some 10, none⟩, ⟨10, some 1, none⟩] 1
    ⟨1, [⟨1, 0⟩, ⟨10, 1⟩], [⟨10, 1⟩], 1, 1⟩ (by decide)
